import Mathlib

/-
Verification of the fungible-token ledger in src/src/rust-token/src/lib.rs
(a Rust ERC-20 contract on the Fluent SDK).

Shallow embedding conventions:
* `Address` is modelled as `Nat` (an opaque identifier; only equality is used).
* `U256` values are modelled as `Nat`; the unchecked `+` of the source's
  `Balance::add` / `Allowance::add` is embedded with an explicit `% 2 ^ 256`,
  matching release-mode wrapping semantics of the `U256` type.  Checked
  subtraction never needs a reduction because the guard `current < amount`
  has already failed.
* The storage maps declared by `solidity_storage!` become total functions
  with an implicit-zero default carried by the state itself.
* A Rust abort raised through `unwrap_or_else(|err| ...)` is embedded as an
  `Except.error`: the hosting environment turns the abort into a failed call.
-/

namespace RustToken

/-- Account identifier (the source's 20-byte `Address`, used only for equality). -/
abbrev Address : Type := Nat

/-- One more than the largest representable `U256` value. -/
def UMAX : Nat := 2 ^ 256

/-- Failure causes of the ledger, from the abort messages in lib.rs:
"insufficient balance" (Balance::subtract) and "insufficient allowance"
(Allowance::subtract and the precheck in transfer_from). -/
inductive Err where
  | insufficientBalance
  | insufficientAllowance
deriving DecidableEq, Repr

/-- Events declared by the `sol!` block: `Transfer(from, to, value)` and
`Approval(owner, spender, value)`. -/
inductive Event where
  | Transfer (src dst : Address) (value : Nat)
  | Approval (owner spender : Address) (value : Nat)
deriving DecidableEq, Repr

/-- The persistent storage declared by `solidity_storage!`:
`mapping(Address => U256) Balance` and
`mapping(Address => mapping(Address => U256)) Allowance`.
Absent keys read as zero, so each map is a total function. -/
structure EvmState where
  balances : Address → Nat
  allowances : Address → Address → Nat

namespace Balance

/-- `Balance::get`: read the stored balance (defaults to zero). -/
def get (s : EvmState) (address : Address) : Nat :=
  s.balances address

/-- `Balance::set`: write a balance slot. -/
def set (s : EvmState) (address : Address) (v : Nat) : EvmState :=
  { s with balances := Function.update s.balances address v }

/-- `Balance::add`: `new_balance = current_balance + amount` with the
source's unchecked `U256` addition (wraps modulo `2 ^ 256`), then store.
Always returns `Ok(())`. -/
def add (s : EvmState) (address : Address) (amount : Nat) :
    Except Err EvmState :=
  let current_balance := get s address
  let new_balance := (current_balance + amount) % UMAX
  Except.ok (set s address new_balance)

/-- `Balance::subtract`: fail with "insufficient balance" when
`current_balance < amount`, otherwise store `current_balance - amount`. -/
def subtract (s : EvmState) (address : Address) (amount : Nat) :
    Except Err EvmState :=
  let current_balance := get s address
  if current_balance < amount then
    Except.error Err.insufficientBalance
  else
    Except.ok (set s address (current_balance - amount))

end Balance

namespace Allowance

/-- `Allowance::get`: read the stored allowance (defaults to zero). -/
def get (s : EvmState) (owner spender : Address) : Nat :=
  s.allowances owner spender

/-- `Allowance::set`: write an allowance slot. -/
def set (s : EvmState) (owner spender : Address) (v : Nat) : EvmState :=
  { s with
    allowances :=
      Function.update s.allowances owner
        (Function.update (s.allowances owner) spender v) }

/-- `Allowance::add`: unchecked `U256` addition, then store; always `Ok`. -/
def add (s : EvmState) (owner spender : Address) (amount : Nat) :
    Except Err EvmState :=
  let current_allowance := get s owner spender
  let new_allowance := (current_allowance + amount) % UMAX
  Except.ok (set s owner spender new_allowance)

/-- `Allowance::subtract`: fail with "insufficient allowance" when
`current_allowance < amount`, otherwise store `current_allowance - amount`. -/
def subtract (s : EvmState) (owner spender : Address) (amount : Nat) :
    Except Err EvmState :=
  let current_allowance := get s owner spender
  if current_allowance < amount then
    Except.error Err.insufficientAllowance
  else
    Except.ok (set s owner spender (current_allowance - amount))

end Allowance

namespace ERC20

/-- `ERC20::total_supply`: the fixed constant `10^24`
(`U256::from_str_radix("1000000000000000000000000", 10)`). -/
def total_supply : Nat := 1000000000000000000000000

/-- `ERC20::balance_of`. -/
def balance_of (s : EvmState) (account : Address) : Nat :=
  Balance.get s account

/-- `ERC20::allowance`. -/
def allowance (s : EvmState) (owner spender : Address) : Nat :=
  Allowance.get s owner spender

/-- `ERC20::transfer`: debit the caller (`contract_caller()`), credit `to`,
emit one `Transfer` event, return `U256::from(1)`.  The two
`unwrap_or_else(.. abort ..)` sites propagate as `Except.error`. -/
def transfer (s : EvmState) (caller to_ : Address) (value : Nat) :
    Except Err (EvmState × List Event × Nat) := do
  let s1 ← Balance.subtract s caller value
  let s2 ← Balance.add s1 to_ value
  Except.ok (s2, [Event.Transfer caller to_ value], 1)

/-- `ERC20::approve`: unconditionally overwrite the allowance slot, emit one
`Approval` event, return `U256::from(1)`.  The source has no failure path. -/
def approve (s : EvmState) (caller spender : Address) (value : Nat) :
    EvmState × List Event × Nat :=
  (Allowance.set s caller spender value,
   [Event.Approval caller spender value], 1)

/-- `ERC20::transfer_from`: the caller is the spender; abort with
"insufficient allowance" when `current_allowance < value`; then
`Allowance::subtract`, `Balance::subtract` on `from`, `Balance::add` on `to`,
emit one `Transfer` event, return `U256::from(1)`. -/
def transfer_from (s : EvmState) (spender from_ to_ : Address) (value : Nat) :
    Except Err (EvmState × List Event × Nat) := do
  let current_allowance := Allowance.get s from_ spender
  if current_allowance < value then
    Except.error Err.insufficientAllowance
  else do
    let s1 ← Allowance.subtract s from_ spender value
    let s2 ← Balance.subtract s1 from_ value
    let s3 ← Balance.add s2 to_ value
    Except.ok (s3, [Event.Transfer from_ to_ value], 1)

/-- `ERC20::deploy`: credit the creating caller with the whole total supply
(the constant is spelled out again in the source) and discard the `Result`
(`let _ = Balance::add(..)`).  The body contains no `emit_event` call, so the
emitted-event list of a deploy is empty. -/
def deploy (s : EvmState) (caller : Address) : EvmState × List Event :=
  let owner_balance : Nat := 1000000000000000000000000
  (match Balance.add s caller owner_balance with
   | Except.ok s2 => s2
   | Except.error _ => s,
   [])

end ERC20

/-- Modelled from the spec: section 5 describes the hosting execution
environment (an external collaborator, not code of this repository) as
committing an operation's store writes and emitted events only when the
operation succeeds, and discarding all of them — leaving the pre-call
state — when it aborts.  `hostRun` applies that atomic-commit rule to the
outcome of one ledger call starting from state `s`. -/
def hostRun (s : EvmState) (r : Except Err (EvmState × List Event × Nat)) :
    EvmState × List Event × Option Nat :=
  match r with
  | Except.ok (s2, evs, ret) => (s2, evs, some ret)
  | Except.error _ => (s, [], none)

/-- The all-zero pre-deploy state: every balance and allowance slot absent. -/
def zeroState : EvmState :=
  { balances := fun _ => 0, allowances := fun _ _ => 0 }

/-- A value-moving call, for stating the conservation law over sequences:
either a `transfer` by `caller` or a `transfer_from` by `spender`. -/
inductive Op where
  | transfer (caller to_ : Address) (value : Nat)
  | transferFrom (spender from_ to_ : Address) (value : Nat)

/-- The balance-store accounts an operation can touch lie inside `S`. -/
def Op.accountsIn (S : Finset Address) : Op → Prop
  | Op.transfer caller to_ _ => caller ∈ S ∧ to_ ∈ S
  | Op.transferFrom _ from_ to_ _ => from_ ∈ S ∧ to_ ∈ S

/-- Run one value-moving call, keeping only the state (events dropped). -/
def Op.applyTo (s : EvmState) : Op → Except Err EvmState
  | Op.transfer caller to_ v => (ERC20.transfer s caller to_ v).map (·.1)
  | Op.transferFrom sp from_ to_ v =>
      (ERC20.transfer_from s sp from_ to_ v).map (·.1)

/-- Run a sequence of value-moving calls; the whole run succeeds only when
every call in it succeeds. -/
def runOps (s : EvmState) : List Op → Except Err EvmState
  | [] => Except.ok s
  | op :: rest => do
      let s2 ← Op.applyTo s op
      runOps s2 rest

/-- Concrete fixture state: account 0 holds the whole total supply, account 1
has granted spender 2 an allowance of 3; every other slot is zero. -/
def fixState : EvmState :=
  { balances := Function.update (fun _ => 0) 0 ERC20.total_supply,
    allowances :=
      Function.update (fun _ _ => 0) 1 (Function.update (fun _ => 0) 2 3) }

/-- Concrete fixture call sequence: a `transfer` of 5 from 0 to 1, then a
`transfer_from` by spender 2 moving 3 from 1 back to 0. -/
def fixOps : List Op := [Op.transfer 0 1 5, Op.transferFrom 2 1 0 3]

/-- The accounts touched by `fixOps`. -/
def fixAccounts : Finset Address := {0, 1}

/-- The state reached by running `fixOps` from `fixState` (the run succeeds,
so the fallback branch is never taken). -/
def fixEndState : EvmState :=
  match runOps fixState fixOps with
  | Except.ok s => s
  | Except.error _ => zeroState

/-- The outcome of one concrete successful transfer (7 from 0 to 1) on
`fixState`; the fallback branch is never taken. -/
def fixTransferOut : EvmState × List Event × Nat :=
  match ERC20.transfer fixState 0 1 7 with
  | Except.ok x => x
  | Except.error _ => (zeroState, [], 0)

/-- Concrete fixture state for the overflow analysis of `Balance::add`:
account 1 holds the largest representable `U256` value. -/
def maxState : EvmState :=
  { balances := Function.update (fun _ => 0) 1 (UMAX - 1),
    allowances := fun _ _ => 0 }

/-! Basic store lemmas. -/

theorem balance_get_set_self (s : EvmState) (a : Address) (v : Nat) :
    Balance.get (Balance.set s a v) a = v := by
  simp [Balance.get, Balance.set, Function.update_same]

theorem balance_get_set_ne (s : EvmState) (a b : Address) (v : Nat)
    (h : b ≠ a) : Balance.get (Balance.set s a v) b = Balance.get s b := by
  simp [Balance.get, Balance.set, Function.update_noteq h]

theorem balance_set_balances (s : EvmState) (a : Address) (v : Nat) :
    (Balance.set s a v).balances = Function.update s.balances a v := rfl

theorem allowance_get_set_self (s : EvmState) (o sp : Address) (v : Nat) :
    Allowance.get (Allowance.set s o sp v) o sp = v := by
  simp [Allowance.get, Allowance.set, Function.update_same]

theorem allowance_set_balances (s : EvmState) (o sp : Address) (v : Nat) :
    (Allowance.set s o sp v).balances = s.balances := rfl

theorem balance_set_allowances (s : EvmState) (a : Address) (v : Nat) :
    (Balance.set s a v).allowances = s.allowances := rfl

/-! Characterizations of the single-store operations. -/

theorem balance_subtract_of_lt (s : EvmState) (a : Address) (v : Nat)
    (h : Balance.get s a < v) :
    Balance.subtract s a v = Except.error Err.insufficientBalance := by
  simp [Balance.subtract, h]

theorem balance_subtract_of_le (s : EvmState) (a : Address) (v : Nat)
    (h : v ≤ Balance.get s a) :
    Balance.subtract s a v = Except.ok (Balance.set s a (Balance.get s a - v)) := by
  simp [Balance.subtract, Nat.not_lt.mpr h]

theorem balance_add_eq (s : EvmState) (a : Address) (v : Nat) :
    Balance.add s a v =
      Except.ok (Balance.set s a ((Balance.get s a + v) % UMAX)) := rfl

theorem allowance_subtract_of_lt (s : EvmState) (o sp : Address) (v : Nat)
    (h : Allowance.get s o sp < v) :
    Allowance.subtract s o sp v = Except.error Err.insufficientAllowance := by
  simp [Allowance.subtract, h]

theorem allowance_subtract_of_le (s : EvmState) (o sp : Address) (v : Nat)
    (h : v ≤ Allowance.get s o sp) :
    Allowance.subtract s o sp v =
      Except.ok (Allowance.set s o sp (Allowance.get s o sp - v)) := by
  simp [Allowance.subtract, Nat.not_lt.mpr h]

/-! Characterizations of `ERC20::transfer`. -/

theorem transfer_of_lt (s : EvmState) (caller to_ : Address) (v : Nat)
    (h : Balance.get s caller < v) :
    ERC20.transfer s caller to_ v = Except.error Err.insufficientBalance := by
  simp [ERC20.transfer, balance_subtract_of_lt s caller v h, Bind.bind, Except.bind]

theorem transfer_of_le (s : EvmState) (caller to_ : Address) (v : Nat)
    (h : v ≤ Balance.get s caller) :
    ERC20.transfer s caller to_ v =
      Except.ok
        (Balance.set (Balance.set s caller (Balance.get s caller - v)) to_
          ((Balance.get (Balance.set s caller (Balance.get s caller - v)) to_ + v) % UMAX),
         [Event.Transfer caller to_ v], 1) := by
  simp [ERC20.transfer, balance_subtract_of_le s caller v h, balance_add_eq,
    Bind.bind, Except.bind]

theorem transfer_error_iff (s : EvmState) (caller to_ : Address) (v : Nat)
    (e : Err) :
    ERC20.transfer s caller to_ v = Except.error e ↔
      Balance.get s caller < v ∧ e = Err.insufficientBalance := by
  by_cases h : Balance.get s caller < v
  · rw [transfer_of_lt s caller to_ v h]
    constructor
    · intro he
      exact ⟨h, (Except.error.injEq _ _).mp he.symm⟩
    · intro ⟨_, he⟩
      rw [he]
  · rw [transfer_of_le s caller to_ v (Nat.not_lt.mp h)]
    constructor
    · intro he
      exact absurd he (by simp)
    · intro ⟨hlt, _⟩
      exact absurd hlt h

/-! Characterizations of `ERC20::transfer_from`. -/

theorem transfer_from_precheck (s : EvmState) (sp from_ to_ : Address)
    (v : Nat) (h : Allowance.get s from_ sp < v) :
    ERC20.transfer_from s sp from_ to_ v =
      Except.error Err.insufficientAllowance := by
  simp [ERC20.transfer_from, h]

/-- Once the allowance precheck has passed, `transfer_from` behaves exactly
like `transfer` run on the state whose allowance slot has already been
decremented: the remaining body is the same debit-then-credit sequence and
the same emitted `Transfer` event. -/
theorem transfer_from_of_le (s : EvmState) (sp from_ to_ : Address) (v : Nat)
    (h : v ≤ Allowance.get s from_ sp) :
    ERC20.transfer_from s sp from_ to_ v =
      ERC20.transfer (Allowance.set s from_ sp (Allowance.get s from_ sp - v))
        from_ to_ v := by
  simp [ERC20.transfer_from, ERC20.transfer, Nat.not_lt.mpr h,
    allowance_subtract_of_le s from_ sp v h, Bind.bind, Except.bind]

/-! Conservation of the balance sum. -/

theorem sum_update_eq (f : Address → Nat) (S : Finset Address) (a : Address)
    (b : Nat) (ha : a ∈ S) :
    ∑ x ∈ S, Function.update f a b x = ∑ x ∈ S, f x - f a + b := by
  rw [Finset.sum_update_of_mem ha, Finset.sdiff_singleton_eq_erase]
  have h1 := Finset.add_sum_erase S f ha
  have h2 : f a ≤ ∑ x ∈ S, f x :=
    Finset.single_le_sum (fun i _ => Nat.zero_le (f i)) ha
  omega

/-- A successful `transfer` debits the caller and credits `to_` (with the
source's wrapping addition); nothing else changes, and it reports the one
`Transfer` event and the return value 1. -/
theorem transfer_ok_balances (s s' : EvmState) (evs : List Event) (r : Nat)
    (caller to_ : Address) (v : Nat)
    (hok : ERC20.transfer s caller to_ v = Except.ok (s', evs, r)) :
    v ≤ s.balances caller ∧
    s'.balances =
      Function.update
        (Function.update s.balances caller (s.balances caller - v)) to_
        ((Function.update s.balances caller (s.balances caller - v) to_ + v)
          % UMAX) ∧
    evs = [Event.Transfer caller to_ v] ∧ r = 1 := by
  by_cases h : Balance.get s caller < v
  · rw [transfer_of_lt s caller to_ v h] at hok
    exact absurd hok (by simp)
  · have hle := Nat.not_lt.mp h
    rw [transfer_of_le s caller to_ v hle] at hok
    simp only [Except.ok.injEq, Prod.mk.injEq] at hok
    obtain ⟨hs, hevs, hr⟩ := hok
    refine ⟨hle, ?_, hevs.symm, hr.symm⟩
    rw [← hs]
    rfl

/-- The fixed total supply is representable. -/
theorem total_supply_lt_umax : ERC20.total_supply < UMAX := by
  decide

/-- One successful `transfer` whose two accounts lie in `S` preserves the
balance sum over `S` and leaves every account outside `S` untouched. -/
theorem transfer_ok_sum (S : Finset Address) (s s' : EvmState)
    (evs : List Event) (r : Nat) (caller to_ : Address) (v : Nat)
    (hc : caller ∈ S) (ht : to_ ∈ S)
    (hsum : ∑ a ∈ S, s.balances a = ERC20.total_supply)
    (hok : ERC20.transfer s caller to_ v = Except.ok (s', evs, r)) :
    (∑ a ∈ S, s'.balances a = ERC20.total_supply) ∧
      ∀ a, a ∉ S → s'.balances a = s.balances a := by
  obtain ⟨hv, hbal, -, -⟩ := transfer_ok_balances s s' evs r caller to_ v hok
  set g := Function.update s.balances caller (s.balances caller - v) with hg
  have hbc : s.balances caller ≤ ∑ a ∈ S, s.balances a :=
    Finset.single_le_sum (fun i _ => Nat.zero_le (s.balances i)) hc
  have hsg : ∑ a ∈ S, g a =
      ∑ a ∈ S, s.balances a - s.balances caller + (s.balances caller - v) :=
    sum_update_eq s.balances S caller (s.balances caller - v) hc
  have hgt : g to_ ≤ ∑ a ∈ S, g a :=
    Finset.single_le_sum (fun i _ => Nat.zero_le (g i)) ht
  have hT := total_supply_lt_umax
  have hmod : (g to_ + v) % UMAX = g to_ + v := Nat.mod_eq_of_lt (by omega)
  constructor
  · rw [hbal, sum_update_eq g S to_ _ ht, hmod]
    omega
  · intro a ha
    rw [hbal]
    have h1 : a ≠ to_ := fun e => ha (e ▸ ht)
    have h2 : a ≠ caller := fun e => ha (e ▸ hc)
    rw [Function.update_noteq h1, hg, Function.update_noteq h2]

/-- One successful value-moving call whose balance accounts lie in `S`
preserves the balance sum over `S` and leaves accounts outside `S` alone. -/
theorem applyTo_ok_sum (S : Finset Address) (s s' : EvmState) (op : Op)
    (hop : op.accountsIn S)
    (hsum : ∑ a ∈ S, s.balances a = ERC20.total_supply)
    (hok : Op.applyTo s op = Except.ok s') :
    (∑ a ∈ S, s'.balances a = ERC20.total_supply) ∧
      ∀ a, a ∉ S → s'.balances a = s.balances a := by
  cases op with
  | transfer caller to_ v =>
    obtain ⟨hc, ht⟩ := hop
    rcases hres : ERC20.transfer s caller to_ v with e | x
    · simp only [Op.applyTo, hres, Except.map] at hok
      exact Except.noConfusion hok
    · obtain ⟨s2, evs, r⟩ := x
      simp only [Op.applyTo, hres, Except.map] at hok
      rw [Except.ok.injEq] at hok
      subst hok
      exact transfer_ok_sum S s s2 evs r caller to_ v hc ht hsum hres
  | transferFrom sp from_ to_ v =>
    obtain ⟨hf, ht⟩ := hop
    by_cases hA : Allowance.get s from_ sp < v
    · simp only [Op.applyTo, transfer_from_precheck s sp from_ to_ v hA,
        Except.map] at hok
      exact Except.noConfusion hok
    · have hle := Nat.not_lt.mp hA
      simp only [Op.applyTo, transfer_from_of_le s sp from_ to_ v hle] at hok
      set s1 := Allowance.set s from_ sp (Allowance.get s from_ sp - v) with hs1
      have hbal1 : s1.balances = s.balances := rfl
      rcases hres : ERC20.transfer s1 from_ to_ v with e | x
      · rw [hres] at hok
        simp only [Except.map] at hok
        exact Except.noConfusion hok
      · obtain ⟨s2, evs, r⟩ := x
        rw [hres] at hok
        simp only [Except.map] at hok
        rw [Except.ok.injEq] at hok
        subst hok
        have hsum1 : ∑ a ∈ S, s1.balances a = ERC20.total_supply := by
          rw [hbal1]; exact hsum
        obtain ⟨h1, h2⟩ :=
          transfer_ok_sum S s1 s2 evs r from_ to_ v hf ht hsum1 hres
        exact ⟨h1, fun a ha => (h2 a ha).trans (congrFun hbal1 a)⟩

/-- Claim C1 (conservation of value): when a state carries the whole fixed
total supply on a finite support `S` and a sequence of `transfer` /
`transfer_from` calls touching only accounts of `S` runs to completion with
every call successful, the resulting state still carries balance sum equal
to the fixed total supply on `S`, and still holds zero everywhere else —
each call only moves value between its source and destination entries. -/
theorem claimC1_conservation (s : EvmState) (ops : List Op)
    (S : Finset Address) (s' : EvmState)
    (hS : ∀ op ∈ ops, op.accountsIn S)
    (hzero : ∀ a, a ∉ S → s.balances a = 0)
    (hsum : ∑ a ∈ S, s.balances a = ERC20.total_supply)
    (hrun : runOps s ops = Except.ok s') :
    (∑ a ∈ S, s'.balances a = ERC20.total_supply) ∧
      ∀ a, a ∉ S → s'.balances a = 0 := by
  induction ops generalizing s with
  | nil =>
    rw [runOps] at hrun
    rw [Except.ok.injEq] at hrun
    subst hrun
    exact ⟨hsum, hzero⟩
  | cons op rest ih =>
    rw [runOps] at hrun
    rcases hstep : Op.applyTo s op with e | s2
    · rw [hstep] at hrun
      simp [Bind.bind, Except.bind] at hrun
    · rw [hstep] at hrun
      simp only [Bind.bind, Except.bind] at hrun
      obtain ⟨hsum2, hframe⟩ :=
        applyTo_ok_sum S s s2 op (hS op (List.mem_cons_self op rest)) hsum hstep
      exact ih s2 (fun o ho => hS o (List.mem_cons_of_mem op ho))
        (fun a ha => (hframe a ha).trans (hzero a ha)) hsum2 hrun

/-- Witness for claim C1 at a concrete run: starting from `fixState` (account
0 holds the supply), the sequence `fixOps` succeeds and the balance sum over
the touched accounts is still the fixed total supply. -/
theorem claimC1_conservation_witness :
    ∑ a ∈ fixAccounts, fixEndState.balances a = ERC20.total_supply := by
  refine (claimC1_conservation fixState fixOps fixAccounts fixEndState
    ?_ ?_ ?_ rfl).1
  · intro op hop
    simp only [fixOps, List.mem_cons, List.not_mem_nil, or_false] at hop
    rcases hop with h | h
    · subst h
      exact ⟨by decide, by decide⟩
    · subst h
      exact ⟨by decide, by decide⟩
  · intro a ha
    simp only [fixAccounts, Finset.mem_insert, Finset.mem_singleton,
      not_or] at ha
    obtain ⟨h0, _⟩ := ha
    simp [fixState, Function.update_noteq h0]
  · simp only [fixAccounts, fixState]
    rw [Finset.sum_pair (by decide : (0 : Address) ≠ 1)]
    rw [Function.update_same, Function.update_noteq (by decide : (1 : Address) ≠ 0)]
    omega

/-- Claim C2 (transfer_from ordering): with enough allowance but not enough
balance, `transfer_from` aborts with the insufficient-balance cause — never
the insufficient-allowance one, because the allowance condition is checked
first — and after the aborted call the allowance slot holds its pre-call
value (the host discards the intermediate allowance decrement). -/
theorem claimC2_transferFrom_order (s : EvmState) (sp from_ to_ : Address)
    (v : Nat) (hallow : v ≤ ERC20.allowance s from_ sp)
    (hbal : ERC20.balance_of s from_ < v) :
    ERC20.transfer_from s sp from_ to_ v =
      Except.error Err.insufficientBalance ∧
    ERC20.allowance (hostRun s (ERC20.transfer_from s sp from_ to_ v)).1
      from_ sp = ERC20.allowance s from_ sp := by
  have h1 : ERC20.transfer_from s sp from_ to_ v =
      Except.error Err.insufficientBalance := by
    rw [transfer_from_of_le s sp from_ to_ v hallow]
    exact transfer_of_lt _ from_ to_ v hbal
  rw [h1]
  exact ⟨rfl, rfl⟩

/-- Witness for claim C2: on `fixState`, spender 2 holds an allowance of 3
from account 1 whose balance is 0, so moving 2 fails on the balance check
and the committed allowance is still 3. -/
theorem claimC2_transferFrom_order_witness :
    ERC20.transfer_from fixState 2 1 0 2 =
      Except.error Err.insufficientBalance ∧
    ERC20.allowance (hostRun fixState (ERC20.transfer_from fixState 2 1 0 2)).1
      1 2 = ERC20.allowance fixState 1 2 :=
  claimC2_transferFrom_order fixState 2 1 0 2 (by decide) (by decide)

/-- Claim C3 (transfer contract): `transfer` fails — with the
insufficient-balance cause — exactly when the caller's balance is strictly
below `v`; otherwise it debits the caller by `v`, credits `to_` by `v`
(sequentially, so a self-transfer nets to no change), emits the one
`Transfer` event and returns the success flag 1.  Balances are assumed
bounded by the fixed total supply, the spec's standing conservation
invariant, which keeps the credit below the 256-bit width. -/
theorem claimC3_transfer_contract (s : EvmState) (caller to_ : Address)
    (v : Nat)
    (hbound : ∀ a, ERC20.balance_of s a ≤ ERC20.total_supply) :
    (∀ e, ERC20.transfer s caller to_ v = Except.error e ↔
        ERC20.balance_of s caller < v ∧ e = Err.insufficientBalance) ∧
    (v ≤ ERC20.balance_of s caller →
      ∃ s', ERC20.transfer s caller to_ v =
          Except.ok (s', [Event.Transfer caller to_ v], 1) ∧
        (caller ≠ to_ →
          ERC20.balance_of s' caller = ERC20.balance_of s caller - v ∧
          ERC20.balance_of s' to_ = ERC20.balance_of s to_ + v) ∧
        (caller = to_ →
          ∀ a, ERC20.balance_of s' a = ERC20.balance_of s a) ∧
        ∀ a, a ≠ caller → a ≠ to_ →
          ERC20.balance_of s' a = ERC20.balance_of s a) := by
  constructor
  · exact fun e => transfer_error_iff s caller to_ v e
  · intro hv
    refine ⟨_, transfer_of_le s caller to_ v hv, ?_, ?_, ?_⟩
    · intro hne
      constructor
      · show Balance.get _ caller = _
        rw [balance_get_set_ne _ _ _ _ hne, balance_get_set_self]
        rfl
      · show Balance.get _ to_ = _
        rw [balance_get_set_self,
          balance_get_set_ne _ _ _ _ (Ne.symm hne)]
        have h1 := hbound to_
        have h2 := hbound caller
        have h3 : ERC20.total_supply + ERC20.total_supply < UMAX := by decide
        exact Nat.mod_eq_of_lt (by
          simp only [ERC20.balance_of] at h1 h2 hv
          omega)
    · intro he a
      subst he
      by_cases h : a = caller
      · subst h
        show Balance.get _ a = _
        rw [balance_get_set_self, balance_get_set_self]
        have h1 := hbound a
        have h3 := total_supply_lt_umax
        simp only [ERC20.balance_of] at h1 hv ⊢
        rw [Nat.sub_add_cancel hv, Nat.mod_eq_of_lt (by omega)]
      · show Balance.get _ a = _
        rw [balance_get_set_ne _ _ _ _ h, balance_get_set_ne _ _ _ _ h]
        rfl
    · intro a h1 h2
      show Balance.get _ a = _
      rw [balance_get_set_ne _ _ _ _ h2, balance_get_set_ne _ _ _ _ h1]
      rfl

/-- Witness for claim C3 at `fixState` with caller 0, destination 1 and
value 5 (both the failure characterization and the success clause fire). -/
theorem claimC3_transfer_contract_witness :
    (∀ e, ERC20.transfer fixState 0 1 5 = Except.error e ↔
        ERC20.balance_of fixState 0 < 5 ∧ e = Err.insufficientBalance) ∧
    (5 ≤ ERC20.balance_of fixState 0 →
      ∃ s', ERC20.transfer fixState 0 1 5 =
          Except.ok (s', [Event.Transfer 0 1 5], 1) ∧
        ((0 : Address) ≠ 1 →
          ERC20.balance_of s' 0 = ERC20.balance_of fixState 0 - 5 ∧
          ERC20.balance_of s' 1 = ERC20.balance_of fixState 1 + 5) ∧
        ((0 : Address) = 1 →
          ∀ a, ERC20.balance_of s' a = ERC20.balance_of fixState a) ∧
        ∀ a, a ≠ 0 → a ≠ 1 →
          ERC20.balance_of s' a = ERC20.balance_of fixState a) := by
  refine claimC3_transfer_contract fixState 0 1 5 ?_
  intro a
  by_cases h : a = 0
  · subst h
    simp [ERC20.balance_of, Balance.get, fixState, Function.update_same]
  · simp [ERC20.balance_of, Balance.get, fixState, Function.update_noteq h]

/-- Claim C4 (atomic abort of a failing transfer): when the value exceeds
the caller's balance, `transfer` aborts with the insufficient-balance cause
and the committed post-call state has both balances unchanged and an empty
event list. -/
theorem claimC4_atomic_abort (s : EvmState) (caller to_ : Address) (v : Nat)
    (h : ERC20.balance_of s caller < v) :
    ERC20.transfer s caller to_ v = Except.error Err.insufficientBalance ∧
    ERC20.balance_of (hostRun s (ERC20.transfer s caller to_ v)).1 caller
      = ERC20.balance_of s caller ∧
    ERC20.balance_of (hostRun s (ERC20.transfer s caller to_ v)).1 to_
      = ERC20.balance_of s to_ ∧
    (hostRun s (ERC20.transfer s caller to_ v)).2.1 = [] := by
  have h1 := transfer_of_lt s caller to_ v h
  rw [h1]
  exact ⟨rfl, rfl, rfl, rfl⟩

/-- Witness for claim C4: account 1 of `fixState` has balance 0, so a
transfer of 5 to account 2 aborts and commits nothing. -/
theorem claimC4_atomic_abort_witness :
    ERC20.transfer fixState 1 2 5 = Except.error Err.insufficientBalance ∧
    ERC20.balance_of (hostRun fixState (ERC20.transfer fixState 1 2 5)).1 1
      = ERC20.balance_of fixState 1 ∧
    ERC20.balance_of (hostRun fixState (ERC20.transfer fixState 1 2 5)).1 2
      = ERC20.balance_of fixState 2 ∧
    (hostRun fixState (ERC20.transfer fixState 1 2 5)).2.1 = [] :=
  claimC4_atomic_abort fixState 1 2 5 (by decide)

/-- Claim C5 (approve overwrites, never accumulates, never fails): a second
`approve` for the same owner/spender pair replaces the stored allowance with
its own value regardless of the first one; each call returns the success
flag 1 (the source has no failure path), and in particular 50 then 30
leaves the allowance at 30. -/
theorem claimC5_approve_overwrites (s : EvmState) (owner spender : Address)
    (v1 v2 : Nat) :
    ERC20.allowance
        (ERC20.approve (ERC20.approve s owner spender v1).1 owner spender v2).1
        owner spender = v2 ∧
    (ERC20.approve s owner spender v1).2.2 = 1 ∧
    (ERC20.approve (ERC20.approve s owner spender v1).1 owner spender v2).2.2
      = 1 ∧
    ERC20.allowance
        (ERC20.approve (ERC20.approve s owner spender 50).1 owner spender 30).1
        owner spender = 30 :=
  ⟨allowance_get_set_self _ owner spender v2, rfl, rfl,
   allowance_get_set_self _ owner spender 30⟩

/-- Claim C6 (deploy mint): run on the empty all-zero store, `deploy`
credits the creating caller with exactly `total_supply` and every other
account still reads 0. -/
theorem claimC6_deploy_mint (caller : Address) :
    ERC20.balance_of (ERC20.deploy zeroState caller).1 caller
      = ERC20.total_supply ∧
    ∀ a, a ≠ caller →
      ERC20.balance_of (ERC20.deploy zeroState caller).1 a = 0 := by
  constructor
  · show Balance.get
      (Balance.set zeroState caller ((Balance.get zeroState caller
        + 1000000000000000000000000) % UMAX)) caller = _
    rw [balance_get_set_self]
    show (0 + 1000000000000000000000000) % UMAX = ERC20.total_supply
    decide
  · intro a ha
    show Balance.get
      (Balance.set zeroState caller ((Balance.get zeroState caller
        + 1000000000000000000000000) % UMAX)) a = 0
    rw [balance_get_set_ne _ _ _ _ ha]
    rfl

/-- Witness for claim C6 with deployer 7 and bystander 3. -/
theorem claimC6_deploy_mint_witness :
    ERC20.balance_of (ERC20.deploy zeroState 7).1 7 = ERC20.total_supply ∧
    ERC20.balance_of (ERC20.deploy zeroState 7).1 3 = 0 :=
  ⟨(claimC6_deploy_mint 7).1, (claimC6_deploy_mint 7).2 3 (by decide)⟩

/-- Claim C7 as frozen is false on the code: `deploy` moves the whole total
supply into the deployer's balance (a balance movement) yet its body
contains no event emission at all, so the initial mint emits no `Transfer`
event — here shown concretely for deployer 1 on the empty store. -/
theorem claimC7_counterexample :
    ERC20.balance_of (ERC20.deploy zeroState 1).1 1
      ≠ ERC20.balance_of zeroState 1 ∧
    (ERC20.deploy zeroState 1).2 = [] := by
  exact ⟨by decide, rfl⟩

/-- Claim C7 amended: every successful `transfer` and `transfer_from` emits
exactly one `Transfer(from, to, value)` event, but the initial mint
performed by `deploy` emits no event at all. -/
theorem claimC7_amended_events :
    (∀ (s s' : EvmState) (caller to_ : Address) (v r : Nat)
        (evs : List Event),
        ERC20.transfer s caller to_ v = Except.ok (s', evs, r) →
          evs = [Event.Transfer caller to_ v]) ∧
    (∀ (s s' : EvmState) (sp from_ to_ : Address) (v r : Nat)
        (evs : List Event),
        ERC20.transfer_from s sp from_ to_ v = Except.ok (s', evs, r) →
          evs = [Event.Transfer from_ to_ v]) ∧
    ∀ (s : EvmState) (c : Address), (ERC20.deploy s c).2 = [] := by
  refine ⟨?_, ?_, ?_⟩
  · intro s s' caller to_ v r evs hok
    exact (transfer_ok_balances s s' evs r caller to_ v hok).2.2.1
  · intro s s' sp from_ to_ v r evs hok
    by_cases hA : Allowance.get s from_ sp < v
    · rw [transfer_from_precheck s sp from_ to_ v hA] at hok
      exact Except.noConfusion hok
    · rw [transfer_from_of_le s sp from_ to_ v (Nat.not_lt.mp hA)] at hok
      exact (transfer_ok_balances _ s' evs r from_ to_ v hok).2.2.1
  · intro s c
    rfl

/-- Witness for the amended claim C7: the concrete successful transfer
behind `fixTransferOut` reports exactly one `Transfer(0, 1, 7)` event. -/
theorem claimC7_amended_events_witness :
    fixTransferOut.2.1 = [Event.Transfer 0 1 7] :=
  claimC7_amended_events.1 fixState fixTransferOut.1 0 1 7
    fixTransferOut.2.2 fixTransferOut.2.1 rfl

/-- Claim C8 as frozen is false on the code: crediting 1 to an account that
already holds the largest representable 256-bit value is an addition that
exceeds the integer width, yet `Balance::add` succeeds (no distinguishable
Overflow failure exists in the source) and the stored balance silently
wraps to 0. -/
theorem claimC8_counterexample :
    UMAX ≤ Balance.get maxState 1 + 1 ∧
    (Balance.add maxState 1 1).isOk = true ∧
    Except.map (fun t => Balance.get t 1) (Balance.add maxState 1 1)
      = Except.ok 0 := by
  refine ⟨by decide, rfl, ?_⟩
  show Except.ok (Balance.get (Balance.set maxState 1
    ((Balance.get maxState 1 + 1) % UMAX)) 1) = Except.ok 0
  rw [balance_get_set_self]
  exact congrArg Except.ok (by decide)

/-- Claim C8 amended: the credit operation is an unchecked addition — it
never fails, and the stored balance is the sum reduced modulo `2 ^ 256`
(so an addition that exceeds the integer width silently wraps instead of
raising an Overflow error). -/
theorem claimC8_amended_unchecked_add (s : EvmState) (a : Address)
    (amt : Nat) :
    ∃ s2, Balance.add s a amt = Except.ok s2 ∧
      Balance.get s2 a = (Balance.get s a + amt) % UMAX :=
  ⟨_, rfl, balance_get_set_self s a _⟩

/-- Claim C9 (self-transfer is a no-op on balances): with enough balance, a
transfer from an account to itself succeeds, emits its one `Transfer`
event, returns 1, and leaves every balance — the caller's included — at its
pre-call value, because the debit is stored before the credit reads the
slot back.  The pre-state balance is assumed representable in 256 bits, as
every stored `U256` is. -/
theorem claimC9_self_transfer (s : EvmState) (c : Address) (v : Nat)
    (hrep : ERC20.balance_of s c < UMAX)
    (hv : v ≤ ERC20.balance_of s c) :
    ∃ s', ERC20.transfer s c c v =
        Except.ok (s', [Event.Transfer c c v], 1) ∧
      ∀ a, ERC20.balance_of s' a = ERC20.balance_of s a := by
  refine ⟨_, transfer_of_le s c c v hv, ?_⟩
  intro a
  by_cases h : a = c
  · subst h
    show Balance.get _ a = _
    rw [balance_get_set_self, balance_get_set_self]
    simp only [ERC20.balance_of] at hrep hv ⊢
    rw [Nat.sub_add_cancel hv, Nat.mod_eq_of_lt hrep]
  · show Balance.get _ a = _
    rw [balance_get_set_ne _ _ _ _ h, balance_get_set_ne _ _ _ _ h]
    rfl

/-- Witness for claim C9: account 0 of `fixState` transfers 3 to itself. -/
theorem claimC9_self_transfer_witness :
    ∃ s', ERC20.transfer fixState 0 0 3 =
        Except.ok (s', [Event.Transfer 0 0 3], 1) ∧
      ∀ a, ERC20.balance_of s' a = ERC20.balance_of fixState a :=
  claimC9_self_transfer fixState 0 3 (by decide) (by decide)

/-- Claim C10 (the allowance decrement cannot fail late): once the explicit
precheck `allowance(from, spender) >= value` holds, the
`Allowance::subtract` call succeeds, and consequently `transfer_from` can
never abort with the insufficient-allowance cause past the precheck. -/
theorem claimC10_no_late_allowance_abort (s : EvmState)
    (sp from_ to_ : Address) (v : Nat)
    (h : v ≤ ERC20.allowance s from_ sp) :
    (∃ s2, Allowance.subtract s from_ sp v = Except.ok s2) ∧
    ERC20.transfer_from s sp from_ to_ v ≠
      Except.error Err.insufficientAllowance := by
  refine ⟨⟨_, allowance_subtract_of_le s from_ sp v h⟩, ?_⟩
  rw [transfer_from_of_le s sp from_ to_ v h]
  intro hc
  have h2 := (transfer_error_iff _ from_ to_ v Err.insufficientAllowance).mp hc
  exact Err.noConfusion h2.2

/-- Witness for claim C10: spender 2 moving 3 of account 1's funds on
`fixState` has exactly enough allowance, so the decrement succeeds and the
call does not abort on allowance grounds (it aborts later, on balance). -/
theorem claimC10_no_late_allowance_abort_witness :
    (∃ s2, Allowance.subtract fixState 1 2 3 = Except.ok s2) ∧
    ERC20.transfer_from fixState 2 1 0 3 ≠
      Except.error Err.insufficientAllowance :=
  claimC10_no_late_allowance_abort fixState 2 1 0 3 (by decide)

end RustToken
